import Mathlib

/-!
Shallow embedding, in Lean 4, of the core of the aisuite library
(files src/aisuite/client.py, src/aisuite/utils/tools.py and
src/aisuite/framework/*.py), together with theorems settling the
specification claims about it.

Strings are modelled as lists of characters; Python dictionaries are
modelled as association lists preserving insertion order; Python
exceptions are modelled with Except; mutation of Python lists is
modelled with a small reference heap.
-/

set_option autoImplicit false

deriving instance DecidableEq for Except

namespace Aisuite

/-! ## Python string primitives used by client.py -/

/-- Characters stripped by Python str.strip() with no argument. -/
def pyIsSpace (c : Char) : Bool :=
  c = ' ' || c = '\t' || c = '\n' || c = '\r' || c = '\x0b' || c = '\x0c'

/-- Python str.strip(): remove leading and trailing whitespace. -/
def pyStrip (s : List Char) : List Char :=
  ((s.dropWhile pyIsSpace).reverse.dropWhile pyIsSpace).reverse

/-- Python str.find(sub): index of the first occurrence of sub, none when
absent (Python returns -1 in that case).  An occurrence at index i means
sub is a prefix of the suffix starting at i. -/
def findSub : List Char → List Char → Option Nat
  | [], sub => if sub.isPrefixOf ([] : List Char) then some 0 else none
  | a :: t, sub =>
    if sub.isPrefixOf (a :: t) then some 0
    else (findSub t sub).map (fun n => n + 1)

/-- Python str.split(sep, 1): split on the first occurrence of a one-character
separator; none when the separator does not occur. -/
def splitFirst : List Char → Char → Option (List Char × List Char)
  | [], _ => none
  | c :: rest, sep =>
    if c = sep then some ([], rest)
    else (splitFirst rest sep).map (fun p => (c :: p.1, p.2))

/-- First-match lookup in an association list, modelling Python dict lookup
(keys are unique in a Python dict, so first match is the match). -/
def lookupAssoc {α : Type} : List (List Char × α) → List Char → Option α
  | [], _ => none
  | (k, v) :: rest, key => if k = key then some v else lookupAssoc rest key

/-- Python dict assignment d[k] = v: replace the value in place when the key
exists (its position is kept), append otherwise. -/
def assocSet {α : Type} : List (List Char × α) → List Char → α → List (List Char × α)
  | [], k, v => [(k, v)]
  | (k0, v0) :: rest, k, v =>
    if k0 = k then (k, v) :: rest else (k0, v0) :: assocSet rest k v

/-! ## JSON values

Value universe for tool arguments, tool results and schema defaults.  It is
restricted to the JSON scalars, which is all the claims need; Python
containers as tool results are not modelled. -/

inductive JValue : Type where
  | null : JValue
  | bool (b : Bool) : JValue
  | int (n : Int) : JValue
  | str (s : List Char) : JValue
deriving DecidableEq

/-- Decimal rendering of an integer, as Python repr does. -/
def intDumps (n : Int) : List Char :=
  if n < 0 then '-' :: Nat.toDigits 10 n.natAbs else Nat.toDigits 10 n.toNat

/-- Escaping of one character inside a JSON string literal. -/
def escapeJsonChar (c : Char) : List Char :=
  if c = '"' then ['\\', '"'] else if c = '\\' then ['\\', '\\'] else [c]

/-- json.dumps on the scalar value universe. -/
def jsonDumps : JValue → List Char
  | .null => "null".toList
  | .bool true => "true".toList
  | .bool false => "false".toList
  | .int n => intDumps n
  | .str s => '"' :: ((s.map escapeJsonChar).flatten ++ ['"'])

/-! ## Normalized data model (src/aisuite/framework/message.py, choice.py,
chat_completion_response.py) -/

/-- framework/message.py class Function: the function part of a tool call.
The source stores arguments as a JSON-encoded string and execute_tool
applies json.loads before use; the embedding stores the parsed keyword
dictionary directly (the dict-or-string normalization of tools.py lines
258-260 collapses to this parsed form). -/
structure PyFunction : Type where
  arguments : List (List Char × JValue)
  name : List Char
deriving DecidableEq

/-- framework/message.py class ChatCompletionMessageToolCall (the type tag
"function" is constant and omitted). -/
structure ChatCompletionMessageToolCall : Type where
  id : List Char
  function : PyFunction
deriving DecidableEq

/-- framework/message.py class Message.  The fields tool_call_id and name
cover the tool-result dictionaries built by Tools.execute_tool, which the
source mixes with Message objects in one transcript list. -/
structure Message : Type where
  content : Option (List Char) := none
  reasoning_content : Option (List Char) := none
  tool_calls : Option (List ChatCompletionMessageToolCall) := none
  role : Option (List Char) := none
  refusal : Option (List Char) := none
  tool_call_id : Option (List Char) := none
  name : Option (List Char) := none
deriving DecidableEq

/-- framework/choice.py class Choice. -/
structure Choice : Type where
  finish_reason : Option (List Char) := none
  message : Message
  intermediate_messages : List Message := []
deriving DecidableEq

/-- framework/chat_completion_response.py class ChatCompletionResponse.
The source holds a list of choices of which exactly one is populated and
only choices[0] is ever read; the embedding keeps that single choice. -/
structure ChatCompletionResponse : Type where
  choice : Choice
deriving DecidableEq

/-! ## Response post-processing (client.py Completions._extract_thinking_content) -/

def thinkOpen : List Char := "<think>".toList

def thinkClose : List Char := "</think>".toList

/-- client.py lines 86-112, Completions._extract_thinking_content: when the
stripped content starts with the think marker and contains the closing
marker, move the text between them into reasoning_content and keep the
stripped remainder as content; otherwise return the response unchanged. -/
def extractThinkingContent (r : ChatCompletionResponse) : ChatCompletionResponse :=
  let m := r.choice.message
  match m.content with
  | none => r
  | some c =>
    if c = [] then r
    else
      let content := pyStrip c
      if thinkOpen.isPrefixOf content then
        match findSub content thinkClose with
        | none => r
        | some endIdx =>
          let startIdx := thinkOpen.length
          let thinking := pyStrip ((content.take endIdx).drop startIdx)
          let newContent := pyStrip (content.drop (endIdx + thinkClose.length))
          { r with choice := { r.choice with message :=
              { m with reasoning_content := some thinking, content := some newContent } } }
      else r

/-! ## Tool schema inference and execution (src/aisuite/utils/tools.py) -/

/-- A Python type annotation, as far as tools.py interprets one: the four
primitive types of type_mapping, enum classes (carrying their member
values), and any other annotation (carrying its str() rendering, the
fallback of type_mapping.get). -/
inductive PyAnn : Type where
  | str : PyAnn
  | int : PyAnn
  | float : PyAnn
  | bool : PyAnn
  | enumT (values : List (List Char)) : PyAnn
  | other (rendering : List Char) : PyAnn
deriving DecidableEq

/-- tools.py line 41: type_mapping.get(field_type, str(field_type)) for the
non-enum branch. -/
def typeMapping : PyAnn → List Char
  | .str => "string".toList
  | .int => "integer".toList
  | .float => "number".toList
  | .bool => "boolean".toList
  | .enumT _ => "enum".toList
  | .other rendering => rendering

/-- One field of a pydantic parameter model.  default none models
PydanticUndefined (no default), mirroring the source's
str(field.default) == "PydanticUndefined" test. -/
structure ModelField : Type where
  annot : PyAnn
  default : Option JValue := none
  description : List Char := []
deriving DecidableEq

/-- A pydantic parameter model: its fields in declaration order. -/
structure ParamModel : Type where
  model_fields : List (List Char × ModelField)
deriving DecidableEq

/-- One property of a tool spec's JSON-Schema parameters object. -/
structure PropSpec : Type where
  type : List Char
  enum : Option (List (List Char)) := none
  description : List Char := []
  default : Option JValue := none
deriving DecidableEq

/-- The parameters object of a tool spec (its type field is always the
constant "object" and is omitted). -/
structure ToolSpecParams : Type where
  properties : List (List Char × PropSpec)
  required : List (List Char)
deriving DecidableEq

/-- A unified tool specification (tools.py lines 74-86). -/
structure ToolSpec : Type where
  name : List Char
  description : List Char
  parameters : ToolSpecParams
deriving DecidableEq

/-- tools.py lines 44-72, the per-field body of _convert_to_tool_spec: an
enum annotation becomes type "string" with its enum values, anything else
goes through type_mapping; a default that is not PydanticUndefined is
copied into the property (the source coerces an enum-member default with
.value; defaults here are already plain values). -/
def propOfField (f : ModelField) : PropSpec :=
  match f.annot with
  | .enumT values =>
    { type := "string".toList, enum := some values,
      description := f.description, default := f.default }
  | ann =>
    { type := typeMapping ann, enum := none,
      description := f.description, default := f.default }

/-- tools.py lines 37-86, Tools._convert_to_tool_spec.  required collects the
fields whose default is PydanticUndefined, in field order (the source's
field.is_required conjunct is an uncalled bound method, hence always
truthy, so the PydanticUndefined test decides alone). -/
def convert_to_tool_spec (funcName : List Char) (funcDoc : List Char)
    (param_model : ParamModel) : ToolSpec :=
  { name := funcName,
    description := funcDoc,
    parameters :=
      { properties := param_model.model_fields.map (fun q => (q.1, propOfField q.2)),
        required :=
          (param_model.model_fields.filter (fun q => q.2.default.isNone)).map
            (fun q => q.1) } }

/-- One parameter of a Python callable's signature: annotation none models
inspect.Parameter.empty (no type annotation), default none models a
parameter without a default. -/
structure PyParam : Type where
  name : List Char
  annot : Option PyAnn := none
  default : Option JValue := none
deriving DecidableEq

/-- A Python callable as tools.py introspects one: its __name__, the parsed
docstring (short description, long description and per-parameter
descriptions, i.e. the output of docstring_parser.parse, which is external
to this repository), its signature parameters in order, and its behaviour
as a function from validated keyword arguments to a result value. -/
structure PyFunc : Type where
  name : List Char
  shortDescription : Option (List Char) := none
  longDescription : Option (List Char) := none
  paramDescriptions : List (List Char × List Char) := []
  params : List PyParam
  impl : List (List Char × JValue) → JValue

/-- tools.py lines 118-122: the function description assembled from the
parsed docstring. -/
def functionDescription (f : PyFunc) : List Char :=
  match f.longDescription with
  | none => f.shortDescription.getD []
  | some long => f.shortDescription.getD [] ++ "\n\n".toList ++ long

/-- The TypeError message of tools.py lines 127-129. -/
def typeErrMsg (paramName funcName : List Char) : List Char :=
  "Parameter \x27".toList ++ paramName ++ "\x27 in function \x27".toList ++
    funcName ++ "\x27 must have a type annotation.".toList

/-- tools.py lines 124-142, the parameter loop of __infer_from_signature:
walk the signature parameters in order, fail with TypeError at the first
parameter lacking an annotation, otherwise build the pydantic field list
(required fields keep no default, defaulted fields carry theirs; the
description comes from the parsed docstring). -/
def buildFields (funcName : List Char) (descs : List (List Char × List Char)) :
    List PyParam → Except (List Char) (List (List Char × ModelField))
  | [] => .ok []
  | p :: rest =>
    match p.annot with
    | none => .error (typeErrMsg p.name funcName)
    | some ann =>
      (buildFields funcName descs rest).map
        (fun fs =>
          (p.name,
            { annot := ann, default := p.default,
              description := (lookupAssoc descs p.name).getD [] }) :: fs)

/-- tools.py lines 106-153, Tools.__infer_from_signature: infer the pydantic
model from the signature, convert it to a tool spec, then override the
spec's description with the parsed function description. -/
def infer_from_signature (f : PyFunc) :
    Except (List Char) (ToolSpec × ParamModel) :=
  match buildFields f.name f.paramDescriptions f.params with
  | .error e => .error e
  | .ok fields =>
    let param_model : ParamModel := { model_fields := fields }
    let tool_spec := convert_to_tool_spec f.name [] param_model
    .ok ({ tool_spec with description := functionDescription f }, param_model)

/-- One entry of the tool registry (tools.py lines 23-27). -/
structure RegistryEntry : Type where
  func : List (List Char × JValue) → JValue
  param_model : ParamModel
  spec : ToolSpec

/-- The Tools registry: the self._tools dict, keyed by function name, in
insertion order. -/
structure Tools : Type where
  toolsDict : List (List Char × RegistryEntry)

/-- tools.py lines 16-27, Tools._add_tool on the inference path (no explicit
param_model supplied): registration fails, adding no entry, when inference
raises; otherwise the entry is stored under the function's name. -/
def add_tool (t : Tools) (f : PyFunc) : Except (List Char) Tools :=
  match infer_from_signature f with
  | .error e => .error e
  | .ok (spec, pm) =>
    .ok ⟨assocSet t.toolsDict f.name
      { func := f.impl, param_model := pm, spec := spec }⟩

/-- Acceptance of an argument value by a pydantic field annotation.
Modelled simplification of pydantic validation: primitives accept their
own scalar (float also accepts int), an enum accepts one of its member
values, an unknown annotation accepts anything. -/
def jMatches : PyAnn → JValue → Bool
  | .str, .str _ => true
  | .int, .int _ => true
  | .bool, .bool _ => true
  | .float, .int _ => true
  | .enumT vs, .str s => vs.contains s
  | .other _, _ => true
  | _, _ => false

/-- param_model(**arguments) followed by .model_dump() (tools.py line 271-272):
each declared field in order takes the supplied argument when present and
acceptable, falls back to its default when absent, and fails validation
otherwise; extra arguments are ignored (pydantic default behaviour). -/
def validateFields :
    List (List Char × ModelField) → List (List Char × JValue) →
      Except (List Char) (List (List Char × JValue))
  | [], _ => .ok []
  | (nm, fld) :: rest, args =>
    match lookupAssoc args nm with
    | some v =>
      if jMatches fld.annot v then
        (validateFields rest args).map (fun t => (nm, v) :: t)
      else .error ("invalid value for field ".toList ++ nm)
    | none =>
      match fld.default with
      | some d => (validateFields rest args).map (fun t => (nm, d) :: t)
      | none => .error ("missing required field ".toList ++ nm)

/-- The tool-result message dictionary built at tools.py lines 274-281. -/
def toolResultMessage (c : ChatCompletionMessageToolCall) (result : JValue) : Message :=
  { role := some "tool".toList,
    name := some c.function.name,
    content := some (jsonDumps result),
    tool_call_id := some c.id }

/-- tools.py lines 231-285, Tools.execute_tool on a list of tool calls: for
each call in order, look the tool up (ValueError when unregistered),
validate the arguments against its parameter model (ValueError on
validation failure; either error aborts the whole call), invoke the
callable on the validated arguments, and collect the result alongside its
tool-result message. -/
def execute_tool (t : Tools) :
    List ChatCompletionMessageToolCall →
      Except (List Char) (List JValue × List Message)
  | [] => .ok ([], [])
  | c :: rest =>
    let tool_name := c.function.name
    match lookupAssoc t.toolsDict tool_name with
    | none => .error ("Tool \x27".toList ++ tool_name ++ "\x27 not registered.".toList)
    | some entry =>
      match validateFields entry.param_model.model_fields c.function.arguments with
      | .error e =>
        .error ("Error in tool \x27".toList ++ tool_name ++
          "\x27 parameters: ".toList ++ e)
      | .ok validated =>
        let result := entry.func validated
        match execute_tool t rest with
        | .error e => .error e
        | .ok (rs, ms) => .ok (result :: rs, toolResultMessage c result :: ms)

/-! ## A reference heap of message lists

Python lists are mutable and passed by reference: create copies the
caller's transcript (messages.copy(), client.py line 238) and _tool_runner
mutates the copy in place (messages.extend, line 185).  The heap holds one
cell per live list; a reference is the cell's index. -/

structure Heap : Type where
  refs : List (List Message)
deriving DecidableEq

/-- Read a reference (empty list when dangling, which never arises for
references obtained from alloc). -/
def Heap.get (h : Heap) (r : Nat) : List Message :=
  h.refs.getD r []

/-- Overwrite a reference in place. -/
def Heap.set (h : Heap) (r : Nat) (v : List Message) : Heap :=
  ⟨h.refs.set r v⟩

/-- Allocate a fresh list (models list.copy() producing a new object):
returns the grown heap and the fresh reference. -/
def Heap.alloc (h : Heap) (v : List Message) : Heap × Nat :=
  (⟨h.refs ++ [v]⟩, h.refs.length)

/-! ## The multi-turn orchestrator (client.py Completions._tool_runner) -/

/-- How a run of _tool_runner can fail. -/
inductive RunnerErr : Type where
  | unboundLocal : RunnerErr
  | toolError (msg : List Char) : RunnerErr
deriving DecidableEq

/-- The final response as annotated at client.py lines 170-176 and 189-194:
the returned response object carrying intermediate_responses (all but the
last response) and choices[0].intermediate_messages (the accumulated
assistant and tool messages). -/
structure AnnotatedResponse : Type where
  response : ChatCompletionResponse
  intermediate_responses : List ChatCompletionResponse
  intermediate_messages : List Message
deriving DecidableEq

/-- Outcome of a _tool_runner run: how many adapter calls were made, the
final heap, and the returned annotated response or the raised exception. -/
structure RunnerOut : Type where
  calls : Nat
  heap : Heap
  result : Except RunnerErr AnnotatedResponse

/-- client.py lines 148-194, the while loop of Completions._tool_runner.

The provider oracle gives the successive return values of
provider.chat_completions_create, indexed by call count (the transcript
passed to the provider is the heap cell msgsRef, which the loop extends in
place).  fuel is max_turns - turns; calls counts adapter calls made so
far; iResp and iMsg accumulate intermediate_responses and
intermediate_messages; last is the response variable of the source, none
while still unassigned.  Each iteration: call the adapter, post-process
with _extract_thinking_content, record the response and its message, stop
returning the annotated response when the message carries no (or an
empty) tool_calls list, otherwise execute the tools, extend the
transcript and the bookkeeping, and continue.  When the loop exhausts
max_turns the last response is annotated and returned; when the body
never ran the source raises UnboundLocalError at line 190 because
response was never assigned. -/
def toolRunnerLoop (t : Tools) (provider : Nat → ChatCompletionResponse) :
    Nat → Nat → Heap → Nat → List ChatCompletionResponse → List Message →
      Option ChatCompletionResponse → RunnerOut
  | 0, calls, h, _msgsRef, iResp, iMsg, last =>
    match last with
    | none => ⟨calls, h, .error .unboundLocal⟩
    | some r => ⟨calls, h, .ok ⟨r, iResp.dropLast, iMsg⟩⟩
  | fuel + 1, calls, h, msgsRef, iResp, iMsg, _last =>
    let response := extractThinkingContent (provider calls)
    let iResp2 := iResp ++ [response]
    let iMsg2 := iMsg ++ [response.choice.message]
    match response.choice.message.tool_calls with
    | none => ⟨calls + 1, h, .ok ⟨response, iResp2.dropLast, iMsg2⟩⟩
    | some callList =>
      if callList = [] then ⟨calls + 1, h, .ok ⟨response, iResp2.dropLast, iMsg2⟩⟩
      else
        match execute_tool t callList with
        | .error e => ⟨calls + 1, h, .error (.toolError e)⟩
        | .ok (_results, tool_messages) =>
          toolRunnerLoop t provider fuel (calls + 1)
            (h.set msgsRef
              (h.get msgsRef ++ [response.choice.message] ++ tool_messages))
            msgsRef iResp2 (iMsg2 ++ tool_messages) (some response)

/-- client.py lines 114-194, Completions._tool_runner entered with an
already-built Tools registry: run the loop from turn 0.  max_turns is a
Python int, so Int here; the while condition turns < max_turns runs the
body exactly max(max_turns, 0) = toNat max_turns times unless an early
return or exception fires. -/
def tool_runner (t : Tools) (provider : Nat → ChatCompletionResponse)
    (h : Heap) (messagesRef : Nat) (max_turns : Int) : RunnerOut :=
  toolRunnerLoop t provider max_turns.toNat 0 h messagesRef [] [] none

/-- client.py lines 229-241, the tool-mode branch of Completions.create:
make a private copy of the caller's messages list (messages.copy()) and
hand the copy to _tool_runner. -/
def create_tool_mode (t : Tools) (provider : Nat → ChatCompletionResponse)
    (h : Heap) (messagesRef : Nat) (max_turns : Int) : RunnerOut :=
  let allocated := h.alloc (h.get messagesRef)
  tool_runner t provider allocated.1 allocated.2 max_turns

/-! ## Model-identifier dispatch (client.py Completions.create, lines 196-227) -/

/-- The ValueError message of client.py lines 202-205 (malformed model
identifier: no colon). -/
def invalidFormatMsg (model : List Char) : List Char :=
  "Invalid model format. Expected \x27provider:model\x27, got \x27".toList ++
    model ++ "\x27".toList

/-- Python repr of a string (single-quoted; the provider keys contain no
characters needing escapes). -/
def pyQuote (s : List Char) : List Char :=
  Char.ofNat 39 :: (s ++ [Char.ofNat 39])

/-- The comma-separated interior of the Python repr of a list of strings. -/
def pyListReprItems : List (List Char) → List Char
  | [] => []
  | [x] => pyQuote x
  | x :: y :: rest => pyQuote x ++ ", ".toList ++ pyListReprItems (y :: rest)

/-- Python repr of a list of strings, as an f-string renders
supported_providers. -/
def pyListRepr (xs : List (List Char)) : List Char :=
  '[' :: (pyListReprItems xs ++ [']'])

/-- The ValueError message of client.py lines 212-216 (unsupported provider
key); it interpolates the collection of supported providers. -/
def unsupportedProviderMsg (key : List Char) (supported : List (List Char)) : List Char :=
  "Invalid provider key \x27".toList ++ key ++
    "\x27. Supported providers: ".toList ++ pyListRepr supported ++
    ". Make sure the model string is formatted correctly as \x27provider:model\x27.".toList

/-- client.py lines 196-227, the identifier parsing and validation prefix of
Completions.create: reject a model string without a colon with the
format error, split on the first colon only, reject an unsupported
provider key with the enumerating error, otherwise yield the provider key
and model name that the call is dispatched with.  The supported set comes
from ProviderFactory.get_supported_providers (provider.py, not part of
the analysed sources) and is a parameter here. -/
def createDispatch (supported : List (List Char)) (model : List Char) :
    Except (List Char) (List Char × List Char) :=
  match splitFirst model ':' with
  | none => .error (invalidFormatMsg model)
  | some (provider_key, model_name) =>
    if provider_key ∈ supported then .ok (provider_key, model_name)
    else .error (unsupportedProviderMsg provider_key supported)

/-! ## Derived observations on a run, used to state the loop theorems -/

/-- The i-th post-processed adapter response of a run (every response goes
through _extract_thinking_content as soon as it is received). -/
def respAt (provider : Nat → ChatCompletionResponse) (i : Nat) : ChatCompletionResponse :=
  extractThinkingContent (provider i)

/-- The assistant message of the i-th post-processed response. -/
def msgAt (provider : Nat → ChatCompletionResponse) (i : Nat) : Message :=
  (respAt provider i).choice.message

/-- The tool calls carried by the i-th post-processed response. -/
def tcAt (provider : Nat → ChatCompletionResponse) (i : Nat) :
    Option (List ChatCompletionMessageToolCall) :=
  (msgAt provider i).tool_calls

/-- The tool-result messages produced by executing the i-th response's tool
calls (empty when there are none or execution raises). -/
def execMsgsAt (t : Tools) (provider : Nat → ChatCompletionResponse) (i : Nat) :
    List Message :=
  match tcAt provider i with
  | none => []
  | some cl =>
    match execute_tool t cl with
    | .error _ => []
    | .ok (_, ms) => ms

/-- The transcript block appended by turn i: the assistant message followed
by that turn's tool-result messages. -/
def blockAt (t : Tools) (provider : Nat → ChatCompletionResponse) (i : Nat) :
    List Message :=
  msgAt provider i :: execMsgsAt t provider i

/-- The transcript blocks of n consecutive turns starting at call index c. -/
def blocksFrom (t : Tools) (provider : Nat → ChatCompletionResponse) (c n : Nat) :
    List Message :=
  ((List.range n).map (fun i => blockAt t provider (c + i))).flatten

/-- The post-processed responses of n consecutive turns starting at call
index c. -/
def respsFrom (provider : Nat → ChatCompletionResponse) (c n : Nat) :
    List ChatCompletionResponse :=
  (List.range n).map (fun i => respAt provider (c + i))

/-- The value of the source's response variable after k further iterations
starting at call index c, given its value before them. -/
def lastAfter (provider : Nat → ChatCompletionResponse) (c : Nat) :
    Nat → Option ChatCompletionResponse → Option ChatCompletionResponse
  | 0, last => last
  | m + 1, _ => some (respAt provider (c + m))

/-- Turn i requests tools and their execution succeeds: the i-th response
carries a non-empty tool_calls list and execute_tool returns on it. -/
def goodTurnB (t : Tools) (provider : Nat → ChatCompletionResponse) (i : Nat) : Bool :=
  match tcAt provider i with
  | none => false
  | some cl => !cl.isEmpty && (execute_tool t cl).isOk

/-! ## Concrete fixtures used to instantiate the theorems -/

/-- A registered weather tool, as registration would store it: one required
string parameter named location. -/
def weatherEntry : RegistryEntry :=
  { func := fun _ => JValue.str "72F".toList,
    param_model :=
      { model_fields := [("location".toList, { annot := PyAnn.str })] },
    spec :=
      { name := "get_current_temperature".toList,
        description := "Gets temperature.".toList,
        parameters :=
          { properties := [("location".toList, { type := "string".toList })],
            required := ["location".toList] } } }

/-- A registry holding the weather tool. -/
def fixtureTools : Tools :=
  ⟨[("get_current_temperature".toList, weatherEntry)]⟩

/-- A tool call against the weather tool. -/
def fixtureCall : ChatCompletionMessageToolCall :=
  { id := "call_1".toList,
    function :=
      { name := "get_current_temperature".toList,
        arguments := [("location".toList, JValue.str "SF".toList)] } }

/-- An assistant response requesting the weather tool. -/
def respTool : ChatCompletionResponse :=
  { choice :=
      { finish_reason := some "tool_calls".toList,
        message := { role := some "assistant".toList,
                     tool_calls := some [fixtureCall] } } }

/-- An assistant response with no tool calls. -/
def respStop : ChatCompletionResponse :=
  { choice :=
      { finish_reason := some "stop".toList,
        message := { role := some "assistant".toList,
                     content := some "done".toList } } }

/-- An assistant response whose finish_reason is stop but whose message
still carries a tool call. -/
def respStopWithTool : ChatCompletionResponse :=
  { choice :=
      { finish_reason := some "stop".toList,
        message := { role := some "assistant".toList,
                     tool_calls := some [fixtureCall] } } }

/-- A provider oracle that requests the weather tool on every turn. -/
def providerAllTools : Nat → ChatCompletionResponse := fun _ => respTool

/-- A provider oracle whose first response says stop while carrying a tool
call, and which stops cleanly afterwards. -/
def providerStopWithTool : Nat → ChatCompletionResponse :=
  fun i => if i = 0 then respStopWithTool else respStop

/-- A one-cell heap holding the caller's transcript. -/
def fixtureHeap : Heap :=
  ⟨[[{ role := some "user".toList, content := some "hi".toList }]]⟩

/-- A callable whose first parameter lacks a type annotation. -/
def badFunc : PyFunc :=
  { name := "bad_tool".toList,
    params := [{ name := "x".toList }],
    impl := fun _ => JValue.null }

/-- Scenario A callable: f(location: str, unit: str = "Celsius") with
docstring "Gets temperature.". -/
def scenarioAFunc : PyFunc :=
  { name := "get_current_temperature".toList,
    shortDescription := some "Gets temperature.".toList,
    params :=
      [{ name := "location".toList, annot := some PyAnn.str },
       { name := "unit".toList, annot := some PyAnn.str,
         default := some (JValue.str "Celsius".toList) }],
    impl := fun _ => JValue.str "72F".toList }

/-- A response whose content carries a think segment (Scenario D). -/
def respThink : ChatCompletionResponse :=
  { choice :=
      { finish_reason := some "stop".toList,
        message := { role := some "assistant".toList,
                     content := some "<think>plan</think>final answer".toList } } }

/-! ## General-purpose lemmas -/

theorem list_set_getD_self {α : Type} : ∀ (l : List α) (r : Nat) (d : α),
    l.set r (l.getD r d) = l
  | [], _, _ => rfl
  | _ :: _, 0, _ => rfl
  | x :: t, r + 1, d => by
    simpa [List.getD] using congrArg (x :: ·) (list_set_getD_self t r d)

theorem heap_set_get_self (h : Heap) (r : Nat) : h.set r (h.get r) = h := by
  cases h with
  | mk refs => exact congrArg Heap.mk (list_set_getD_self refs r [])

theorem heap_get_set_self (h : Heap) (r : Nat) (v : List Message)
    (hr : r < h.refs.length) : (h.set r v).get r = v := by
  simp [Heap.set, Heap.get, List.getD, List.getElem?_set_self, hr]

theorem heap_set_oob (h : Heap) (r : Nat) (v : List Message)
    (hr : h.refs.length ≤ r) : h.set r v = h := by
  simp [Heap.set, List.set_eq_of_length_le hr]

theorem heap_set_append_assoc (h : Heap) (r : Nat) (xs ys : List Message) :
    (h.set r (h.get r ++ xs)).set r ((h.set r (h.get r ++ xs)).get r ++ ys) =
      h.set r (h.get r ++ (xs ++ ys)) := by
  by_cases hr : r < h.refs.length
  · rw [heap_get_set_self h r _ hr]
    show Heap.mk _ = Heap.mk _
    simp [Heap.set, List.set_set]
  · have hle : h.refs.length ≤ r := Nat.le_of_not_lt hr
    rw [heap_set_oob h r _ hle, heap_set_oob h r _ hle, heap_set_oob h r _ hle]

theorem heap_get_set_ne (h : Heap) (r s : Nat) (v : List Message)
    (hne : s ≠ r) : (h.set r v).get s = h.get s := by
  simp [Heap.set, Heap.get, List.getD, List.getElem?_set_ne (fun e => hne e.symm)]

theorem heap_get_alloc_fresh (h : Heap) (v : List Message) :
    (h.alloc v).1.get (h.alloc v).2 = v := by
  simp [Heap.alloc, Heap.get, List.getD, List.getElem?_append_right (Nat.le_refl _)]

theorem heap_get_alloc_old (h : Heap) (v : List Message) (r : Nat)
    (hr : r < h.refs.length) : (h.alloc v).1.get r = h.get r := by
  simp [Heap.alloc, Heap.get, List.getD, List.getElem?_append_left hr]

theorem lookupAssoc_mapVal {α β : Type} (g : α → β) :
    ∀ (l : List (List Char × α)) (k : List Char),
      lookupAssoc (l.map (fun q => (q.1, g q.2))) k = (lookupAssoc l k).map g
  | [], _ => rfl
  | (k0, v0) :: rest, k => by
    by_cases hk : k0 = k <;> simp [lookupAssoc, hk, lookupAssoc_mapVal g rest k]

theorem splitFirst_eq_none (sep : Char) :
    ∀ (s : List Char), sep ∉ s → splitFirst s sep = none
  | [], _ => rfl
  | c :: rest, h => by
    have hc : ¬ c = sep := fun e => h (e ▸ List.mem_cons_self c rest)
    simp [splitFirst, hc, splitFirst_eq_none sep rest (fun m => h (List.mem_cons_of_mem c m))]

theorem splitFirst_append (sep : Char) :
    ∀ (key rest : List Char), sep ∉ key →
      splitFirst (key ++ sep :: rest) sep = some (key, rest)
  | [], rest, _ => by simp [splitFirst]
  | c :: k, rest, h => by
    have hc : ¬ c = sep := fun e => h (e ▸ List.mem_cons_self c k)
    simp [splitFirst, hc, splitFirst_append sep k rest (fun m => h (List.mem_cons_of_mem c m))]

theorem findSub_eq_some_of_first (sub : List Char) :
    ∀ (n : Nat) (s : List Char),
      sub.isPrefixOf (s.drop n) = true →
      (∀ j, j < n → sub.isPrefixOf (s.drop j) = false) →
      findSub s sub = some n
  | 0, s, hocc, _ => by
    cases s <;> simp_all [findSub]
  | n + 1, s, hocc, hfirst => by
    have h0 : sub.isPrefixOf s = false := by
      simpa using hfirst 0 (Nat.succ_pos n)
    cases s with
    | nil =>
      cases sub with
      | nil => simp [List.isPrefixOf] at h0
      | cons b sb => simp [List.drop_nil, List.isPrefixOf] at hocc
    | cons a t =>
      have ht : findSub t sub = some n := by
        refine findSub_eq_some_of_first sub n t (by simpa using hocc) ?_
        intro j hj
        simpa using hfirst (j + 1) (Nat.succ_lt_succ hj)
      simp [findSub, h0, ht]

/-! ## Lemmas about the tool executor and schema inference -/

theorem execute_tool_ok (t : Tools) :
    ∀ (calls : List ChatCompletionMessageToolCall) (rs : List JValue) (ms : List Message),
      execute_tool t calls = .ok (rs, ms) →
      rs.length = calls.length ∧ ms = List.zipWith toolResultMessage calls rs := by
  intro calls
  induction calls with
  | nil =>
    intro rs ms h
    simp only [execute_tool] at h
    cases h
    simp
  | cons c rest ih =>
    intro rs ms h
    cases hl : lookupAssoc t.toolsDict c.function.name with
    | none => simp only [execute_tool, hl] at h; simp at h
    | some entry =>
      simp only [execute_tool, hl] at h
      cases hv : validateFields entry.param_model.model_fields c.function.arguments with
      | error e => simp only [hv] at h; simp at h
      | ok validated =>
        simp only [hv] at h
        cases hrec : execute_tool t rest with
        | error e => simp only [hrec] at h; simp at h
        | ok p =>
          simp only [hrec] at h
          cases p with
          | mk rs0 ms0 =>
            cases h
            have := ih rs0 ms0 hrec
            simp [List.zipWith, this.1, this.2]

theorem buildFields_error_of_find (funcName : List Char)
    (descs : List (List Char × List Char)) :
    ∀ (params : List PyParam) (p : PyParam),
      params.find? (fun q => q.annot.isNone) = some p →
      buildFields funcName descs params = .error (typeErrMsg p.name funcName) := by
  intro params
  induction params with
  | nil => intro p h; simp [List.find?] at h
  | cons q rest ih =>
    intro p h
    by_cases hq : q.annot.isNone
    · rw [List.find?_cons_of_pos _ (by simpa using hq)] at h
      cases h
      rw [Option.isNone_iff_eq_none] at hq
      simp [buildFields, hq]
    · rw [List.find?_cons_of_neg _ (by simpa using hq)] at h
      cases ha : q.annot with
      | none => rw [ha] at hq; simp at hq
      | some ann => simp [buildFields, ha, ih p h, Except.map]

/-- The pydantic field that __infer_from_signature builds for an annotated
parameter. -/
def fieldOfParam (descs : List (List Char × List Char)) (p : PyParam) :
    List Char × ModelField :=
  (p.name,
    { annot := p.annot.getD (.other []), default := p.default,
      description := (lookupAssoc descs p.name).getD [] })

theorem buildFields_ok_of_annotated (funcName : List Char)
    (descs : List (List Char × List Char)) :
    ∀ (params : List PyParam), (∀ p ∈ params, p.annot.isSome) →
      buildFields funcName descs params = .ok (params.map (fieldOfParam descs)) := by
  intro params
  induction params with
  | nil => intro _; rfl
  | cons q rest ih =>
    intro hall
    cases ha : q.annot with
    | none =>
      have := hall q (List.mem_cons_self q rest)
      rw [ha] at this
      simp at this
    | some ann =>
      have hrest := ih (fun p hp => hall p (List.mem_cons_of_mem q hp))
      simp [buildFields, ha, hrest, fieldOfParam, Except.map]

theorem lookupAssoc_map_of_nodup {α : Type} (f : PyParam → List Char × α)
    (hf : ∀ p, (f p).1 = p.name) :
    ∀ (params : List PyParam) (p : PyParam),
      (params.map PyParam.name).Nodup → p ∈ params →
      lookupAssoc (params.map f) p.name = some (f p).2 := by
  intro params
  induction params with
  | nil => intro p _ hp; cases hp
  | cons q rest ih =>
    intro p hnd hp
    have hnd' : (rest.map PyParam.name).Nodup := (List.nodup_cons.mp hnd).2
    have hq : q.name ∉ rest.map PyParam.name := (List.nodup_cons.mp hnd).1
    rcases List.mem_cons.mp hp with rfl | hmem
    · simp [lookupAssoc, hf p]
    · have hne : ¬ (f q).1 = p.name := by
        rw [hf q]
        intro e
        exact hq (e ▸ List.mem_map_of_mem PyParam.name hmem)
      simp [lookupAssoc, hne, ih p hnd' hmem]

/-! ## Lemmas about the run observations -/

theorem blocksFrom_zero (t : Tools) (provider : Nat → ChatCompletionResponse)
    (c : Nat) : blocksFrom t provider c 0 = [] := rfl

theorem respsFrom_zero (provider : Nat → ChatCompletionResponse) (c : Nat) :
    respsFrom provider c 0 = [] := rfl

theorem blocksFrom_succ (t : Tools) (provider : Nat → ChatCompletionResponse)
    (c k : Nat) :
    blocksFrom t provider c (k + 1) =
      blockAt t provider c ++ blocksFrom t provider (c + 1) k := by
  simp only [blocksFrom, List.range_succ_eq_map, List.map_cons, List.map_map,
    List.flatten_cons, Nat.add_zero]
  congr 2
  refine List.map_congr_left (fun i _ => ?_)
  have e : c + Nat.succ i = c + 1 + i := by omega
  simp [Function.comp, e]

theorem respsFrom_succ (provider : Nat → ChatCompletionResponse) (c k : Nat) :
    respsFrom provider c (k + 1) =
      respAt provider c :: respsFrom provider (c + 1) k := by
  simp only [respsFrom, List.range_succ_eq_map, List.map_cons, List.map_map,
    Nat.add_zero]
  congr 1
  refine List.map_congr_left (fun i _ => ?_)
  have e : c + Nat.succ i = c + 1 + i := by omega
  simp [Function.comp, e]

theorem blocksFrom_snoc (t : Tools) (provider : Nat → ChatCompletionResponse)
    (c k : Nat) :
    blocksFrom t provider c (k + 1) =
      blocksFrom t provider c k ++ blockAt t provider (c + k) := by
  simp [blocksFrom, List.range_succ]

theorem respsFrom_length (provider : Nat → ChatCompletionResponse) (c n : Nat) :
    (respsFrom provider c n).length = n := by
  simp [respsFrom]

theorem lastAfter_shift (provider : Nat → ChatCompletionResponse) (c k : Nat)
    (last : Option ChatCompletionResponse) :
    lastAfter provider (c + 1) k (some (respAt provider c)) =
      lastAfter provider c (k + 1) last := by
  cases k with
  | zero => simp [lastAfter]
  | succ m =>
    have e : c + 1 + m = c + (m + 1) := by omega
    simp [lastAfter, e]

/-! ## Lemmas about the orchestrator loop -/

theorem toolRunnerLoop_advance (t : Tools) (provider : Nat → ChatCompletionResponse) :
    ∀ (k fuel c : Nat) (h : Heap) (mr : Nat) (iResp : List ChatCompletionResponse)
      (iMsg : List Message) (last : Option ChatCompletionResponse),
      k ≤ fuel → (∀ i, i < k → goodTurnB t provider (c + i) = true) →
      toolRunnerLoop t provider fuel c h mr iResp iMsg last =
        toolRunnerLoop t provider (fuel - k) (c + k)
          (h.set mr (h.get mr ++ blocksFrom t provider c k)) mr
          (iResp ++ respsFrom provider c k) (iMsg ++ blocksFrom t provider c k)
          (lastAfter provider c k last) := by
  intro k
  induction k with
  | zero =>
    intro fuel c h mr iResp iMsg last _ _
    simp [blocksFrom_zero, respsFrom_zero, lastAfter, heap_set_get_self]
  | succ k ih =>
    intro fuel c h mr iResp iMsg last hk hgood
    cases fuel with
    | zero => omega
    | succ f =>
      have hg := hgood 0 (Nat.succ_pos k)
      rw [Nat.add_zero] at hg
      unfold goodTurnB at hg
      cases htc : tcAt provider c with
      | none => rw [htc] at hg; simp at hg
      | some cl =>
        rw [htc] at hg
        simp only [Bool.and_eq_true, Bool.not_eq_eq_eq_not, Bool.not_true] at hg
        have hclne : ¬ cl = [] := by
          intro e
          rw [e] at hg
          simp at hg
        cases hex : execute_tool t cl with
        | error e => rw [hex] at hg; simp [Except.isOk, Except.toBool] at hg
        | ok p =>
          obtain ⟨rs0, ms0⟩ := p
          have htc' : (extractThinkingContent (provider c)).choice.message.tool_calls
              = some cl := htc
          have hexm : execMsgsAt t provider c = ms0 := by
            simp [execMsgsAt, htc, hex]
          have hblock : blockAt t provider c =
              (respAt provider c).choice.message :: ms0 := by
            simp [blockAt, hexm, msgAt]
          have step : toolRunnerLoop t provider (f + 1) c h mr iResp iMsg last =
              toolRunnerLoop t provider f (c + 1)
                (h.set mr
                  (h.get mr ++ [(extractThinkingContent (provider c)).choice.message]
                    ++ ms0)) mr
                (iResp ++ [extractThinkingContent (provider c)])
                ((iMsg ++ [(extractThinkingContent (provider c)).choice.message]) ++ ms0)
                (some (extractThinkingContent (provider c))) := by
            conv_lhs => rw [toolRunnerLoop]
            simp only [htc', hex, hclne, if_false, ite_false]
          rw [step]
          have hgood' : ∀ i, i < k → goodTurnB t provider (c + 1 + i) = true := by
            intro i hi
            have := hgood (i + 1) (Nat.succ_lt_succ hi)
            rwa [show c + (i + 1) = c + 1 + i by omega] at this
          rw [ih f (c + 1) _ mr _ _ _ (by omega) hgood']
          have e1 : f - k = f + 1 - (k + 1) := by omega
          have e2 : c + 1 + k = c + (k + 1) := by omega
      /- heap component -/
          have e3 :
              ((h.set mr
                  (h.get mr ++ [(extractThinkingContent (provider c)).choice.message]
                    ++ ms0)).set mr
                ((h.set mr
                  (h.get mr ++ [(extractThinkingContent (provider c)).choice.message]
                    ++ ms0)).get mr ++ blocksFrom t provider (c + 1) k)) =
              h.set mr (h.get mr ++ blocksFrom t provider c (k + 1)) := by
            have hrw : h.get mr ++ [(extractThinkingContent (provider c)).choice.message]
                ++ ms0 = h.get mr ++ blockAt t provider c := by
              simp [hblock, respAt]
            rw [hrw, heap_set_append_assoc, blocksFrom_succ]
          have e4 : (iResp ++ [extractThinkingContent (provider c)]) ++
              respsFrom provider (c + 1) k = iResp ++ respsFrom provider c (k + 1) := by
            rw [respsFrom_succ]
            simp [respAt]
          have e5 : (((iMsg ++ [(extractThinkingContent (provider c)).choice.message]) ++ ms0)
              ++ blocksFrom t provider (c + 1) k) =
              iMsg ++ blocksFrom t provider c (k + 1) := by
            rw [blocksFrom_succ, hblock]
            simp [respAt]
          have e6 : lastAfter provider (c + 1) k (some (extractThinkingContent (provider c)))
              = lastAfter provider c (k + 1) last := by
            have := lastAfter_shift provider c k last
            simpa [respAt] using this
          rw [e1, e2, e3, e4, e5, e6]

theorem toolRunnerLoop_stop (t : Tools) (provider : Nat → ChatCompletionResponse)
    (fuel c : Nat) (h : Heap) (mr : Nat) (iResp : List ChatCompletionResponse)
    (iMsg : List Message) (last : Option ChatCompletionResponse)
    (hstop : tcAt provider c = none ∨ tcAt provider c = some []) :
    toolRunnerLoop t provider (fuel + 1) c h mr iResp iMsg last =
      ⟨c + 1, h, .ok ⟨respAt provider c, iResp,
        iMsg ++ [(respAt provider c).choice.message]⟩⟩ := by
  rcases hstop with htc | htc <;>
    [have htc' : (extractThinkingContent (provider c)).choice.message.tool_calls = none := htc;
     have htc' : (extractThinkingContent (provider c)).choice.message.tool_calls
       = some [] := htc] <;>
  · conv_lhs => rw [toolRunnerLoop]
    simp [htc', respAt, List.dropLast_concat]

theorem toolRunnerLoop_heap_other (t : Tools) (provider : Nat → ChatCompletionResponse) :
    ∀ (fuel c : Nat) (h : Heap) (mr : Nat) (iResp : List ChatCompletionResponse)
      (iMsg : List Message) (last : Option ChatCompletionResponse) (r : Nat), r ≠ mr →
      (toolRunnerLoop t provider fuel c h mr iResp iMsg last).heap.get r = h.get r := by
  intro fuel
  induction fuel with
  | zero =>
    intro c h mr iResp iMsg last r _
    cases last <;> rfl
  | succ f ih =>
    intro c h mr iResp iMsg last r hr
    conv_lhs => rw [toolRunnerLoop]
    cases htc : (extractThinkingContent (provider c)).choice.message.tool_calls with
    | none => rfl
    | some cl =>
      by_cases hcl : cl = []
      · simp [hcl]
      · simp only [hcl, if_false, ite_false]
        cases hex : execute_tool t cl with
        | error e => rfl
        | ok p =>
          obtain ⟨rs0, ms0⟩ := p
          rw [ih]
          · exact heap_get_set_ne _ _ _ _ hr
          · exact hr

/-! ## Infix lemmas for error messages -/

theorem infix_pyListReprItems (p : List Char) :
    ∀ (xs : List (List Char)), p ∈ xs → List.IsInfix p (pyListReprItems xs) := by
  intro xs
  induction xs with
  | nil => intro hp; cases hp
  | cons x rest ih =>
    intro hp
    rcases List.mem_cons.mp hp with rfl | hmem
    · cases rest with
      | nil =>
        exact ⟨[Char.ofNat 39], [Char.ofNat 39], by simp [pyListReprItems, pyQuote]⟩
      | cons y r =>
        exact ⟨[Char.ofNat 39],
          [Char.ofNat 39] ++ ", ".toList ++ pyListReprItems (y :: r),
          by simp [pyListReprItems, pyQuote]⟩
    · cases rest with
      | nil => cases hmem
      | cons y r =>
        obtain ⟨s, u, hsu⟩ := ih hmem
        exact ⟨pyQuote x ++ ", ".toList ++ s, u, by
          simp only [pyListReprItems]
          rw [← hsu]
          simp⟩

theorem infix_unsupportedProviderMsg (p key : List Char)
    (supported : List (List Char)) (hp : p ∈ supported) :
    List.IsInfix p (unsupportedProviderMsg key supported) := by
  have h1 : List.IsInfix p (pyListRepr supported) := by
    obtain ⟨s, u, hsu⟩ := infix_pyListReprItems p supported hp
    exact ⟨'[' :: s, u ++ [']'], by simp [pyListRepr, ← hsu]⟩
  have h2 : List.IsInfix (pyListRepr supported) (unsupportedProviderMsg key supported) := by
    exact ⟨"Invalid provider key \x27".toList ++ key ++ "\x27. Supported providers: ".toList,
      ". Make sure the model string is formatted correctly as \x27provider:model\x27.".toList,
      by simp [unsupportedProviderMsg]⟩
  exact h1.trans h2

/-! ## Claim theorems -/

/-- C2: for every list of tool calls whose lookups, validations and
invocations all succeed (i.e. execute_tool returns), the results and
messages are index-aligned with the input: same lengths, and the i-th
message has role tool, name the i-th call's function name, content the
JSON encoding of the i-th result, and tool_call_id the i-th call's id, in
input order. -/
theorem execute_tool_result_alignment (t : Tools)
    (calls : List ChatCompletionMessageToolCall) (rs : List JValue) (ms : List Message)
    (h : execute_tool t calls = .ok (rs, ms)) :
    rs.length = calls.length ∧ ms.length = calls.length ∧
    ∀ (i : Nat) (hc : i < calls.length) (hr : i < rs.length) (hm : i < ms.length),
      (ms.get ⟨i, hm⟩).role = some "tool".toList ∧
      (ms.get ⟨i, hm⟩).name = some (calls.get ⟨i, hc⟩).function.name ∧
      (ms.get ⟨i, hm⟩).content = some (jsonDumps (rs.get ⟨i, hr⟩)) ∧
      (ms.get ⟨i, hm⟩).tool_call_id = some (calls.get ⟨i, hc⟩).id := by
  obtain ⟨hlen, hzip⟩ := execute_tool_ok t calls rs ms h
  subst hzip
  refine ⟨hlen, by simp [hlen], ?_⟩
  intro i hc hr hm
  simp [List.get_eq_getElem, List.getElem_zipWith, toolResultMessage]

/-- C2 witness: the alignment theorem applied to the weather fixture. -/
theorem execute_tool_result_alignment_witness :
    execute_tool fixtureTools [fixtureCall] =
      .ok ([JValue.str "72F".toList],
        [toolResultMessage fixtureCall (JValue.str "72F".toList)]) ∧
    [toolResultMessage fixtureCall (JValue.str "72F".toList)].length =
      [fixtureCall].length :=
  ⟨by decide,
    (execute_tool_result_alignment fixtureTools [fixtureCall]
      [JValue.str "72F".toList]
      [toolResultMessage fixtureCall (JValue.str "72F".toList)] (by decide)).2.1⟩

/-- C5: registering a callable that has a parameter without a type
annotation fails at registration time with the TypeError naming the
offending (first unannotated) parameter and the function; no registry
entry is created (the error is returned instead of a new registry). -/
theorem unannotated_param_fails (t : Tools) (f : PyFunc) (p : PyParam)
    (hfind : f.params.find? (fun q => q.annot.isNone) = some p) :
    add_tool t f = .error (typeErrMsg p.name f.name) ∧
    List.IsInfix p.name (typeErrMsg p.name f.name) ∧
    List.IsInfix f.name (typeErrMsg p.name f.name) := by
  refine ⟨?_, ?_, ?_⟩
  · have hb := buildFields_error_of_find f.name f.paramDescriptions f.params p hfind
    simp [add_tool, infer_from_signature, hb]
  · exact ⟨"Parameter \x27".toList,
      "\x27 in function \x27".toList ++ f.name ++
        "\x27 must have a type annotation.".toList,
      by simp [typeErrMsg]⟩
  · exact ⟨"Parameter \x27".toList ++ p.name ++ "\x27 in function \x27".toList,
      "\x27 must have a type annotation.".toList, by simp [typeErrMsg]⟩

/-- C5 witness: registration of the unannotated fixture callable fails. -/
theorem unannotated_param_fails_witness :
    badFunc.params.find? (fun q => q.annot.isNone) =
      some { name := "x".toList } ∧
    add_tool fixtureTools badFunc =
      .error (typeErrMsg "x".toList "bad_tool".toList) :=
  ⟨by decide,
    (unannotated_param_fails fixtureTools badFunc { name := "x".toList } (by decide)).1⟩

/-- C10: entering the tool-runner with a non-positive max_turns runs the
loop body zero times: no adapter call is made and the run fails with the
UnboundLocalError raised when the unassigned response variable is read. -/
theorem nonpositive_max_turns_unbound (t : Tools)
    (provider : Nat → ChatCompletionResponse) (h : Heap) (mr : Nat) (mt : Int)
    (hmt : mt ≤ 0) :
    (create_tool_mode t provider h mr mt).calls = 0 ∧
    (create_tool_mode t provider h mr mt).result = .error .unboundLocal := by
  have h0 : mt.toNat = 0 := Int.toNat_of_nonpos hmt
  constructor <;> simp [create_tool_mode, tool_runner, h0, toolRunnerLoop]

/-- C10 witness: max_turns = 0 on the fixtures. -/
theorem nonpositive_max_turns_unbound_witness :
    (0 : Int) ≤ 0 ∧
    (create_tool_mode fixtureTools providerAllTools fixtureHeap 0 0).calls = 0 ∧
    (create_tool_mode fixtureTools providerAllTools fixtureHeap 0 0).result =
      .error .unboundLocal :=
  ⟨by decide,
    nonpositive_max_turns_unbound fixtureTools providerAllTools fixtureHeap 0 0 (by decide)⟩

/-- C8: a create call that enters multi-turn tool mode leaves the caller's
original messages list unchanged: the orchestrator appends only to the
private copy allocated at entry, so the caller's heap cell still holds its
original value when the run ends. -/
theorem caller_messages_unchanged (t : Tools)
    (provider : Nat → ChatCompletionResponse) (h : Heap) (mr : Nat) (mt : Int)
    (hmr : mr < h.refs.length) :
    (create_tool_mode t provider h mr mt).heap.get mr = h.get mr := by
  have hne : mr ≠ (h.alloc (h.get mr)).2 := Nat.ne_of_lt hmr
  unfold create_tool_mode tool_runner
  exact (toolRunnerLoop_heap_other t provider mt.toNat 0 _ _ [] [] none mr hne).trans
    (heap_get_alloc_old h _ mr hmr)

/-- C8 witness: a two-turn run on the fixtures leaves cell 0 unchanged. -/
theorem caller_messages_unchanged_witness :
    0 < fixtureHeap.refs.length ∧
    (create_tool_mode fixtureTools providerAllTools fixtureHeap 0 2).heap.get 0 =
      fixtureHeap.get 0 :=
  ⟨by decide,
    caller_messages_unchanged fixtureTools providerAllTools fixtureHeap 0 2 (by decide)⟩

/-- C4 (amended): create splits the model identifier on the first colon
only, so the model name may itself contain colons; a supported key
dispatches with key and remainder; an unsupported key fails before any
adapter call with an error enumerating the supported providers; a string
without any colon fails before any adapter call with the format error,
which states the expected format (and, per the counterexample, does not
enumerate the providers). -/
theorem model_identifier_dispatch (supported : List (List Char))
    (key rest model : List Char) (hkey : ':' ∉ key) (hmodel : ':' ∉ model) :
    (key ∈ supported →
      createDispatch supported (key ++ ':' :: rest) = .ok (key, rest)) ∧
    (key ∉ supported →
      createDispatch supported (key ++ ':' :: rest) =
        .error (unsupportedProviderMsg key supported) ∧
      ∀ p ∈ supported, List.IsInfix p (unsupportedProviderMsg key supported)) ∧
    createDispatch supported model = .error (invalidFormatMsg model) := by
  have hsplit := splitFirst_append ':' key rest hkey
  refine ⟨?_, ?_, ?_⟩
  · intro hmem
    simp [createDispatch, hsplit, hmem]
  · intro hmem
    exact ⟨by simp [createDispatch, hsplit, hmem],
      fun p hp => infix_unsupportedProviderMsg p key supported hp⟩
  · simp [createDispatch, splitFirst_eq_none ':' model hmodel]

/-- C4 witness: groq:llama3:70b splits into groq and llama3:70b. -/
theorem model_identifier_dispatch_witness :
    (':' ∉ "groq".toList) ∧
    createDispatch ["groq".toList] ("groq".toList ++ ':' :: "llama3:70b".toList) =
      .ok ("groq".toList, "llama3:70b".toList) :=
  ⟨by decide,
    (model_identifier_dispatch ["groq".toList] "groq".toList "llama3:70b".toList
      "nocolon".toList (by decide) (by decide)).1 (by decide)⟩

/-- C4 counterexample: a model string without a colon fails with the format
error, whose message does not contain the supported provider key openai,
so the no-colon failure does not enumerate the supported providers as the
claim states. -/
theorem model_identifier_no_colon_counterexample :
    createDispatch ["openai".toList] "nocolon".toList =
      .error (invalidFormatMsg "nocolon".toList) ∧
    ¬ List.IsInfix "openai".toList (invalidFormatMsg "nocolon".toList) := by
  exact ⟨by decide, by decide⟩

/-- C6: when the first choice's content, after trimming, starts with the
think opening marker and first contains the closing marker right after
some prefix a, post-processing moves the trimmed a into reasoning_content
and keeps the trimmed remainder as content; when the closing marker is
absent the response is returned unmodified. -/
theorem think_tag_extraction (r : ChatCompletionResponse) :
    (∀ c a b, r.choice.message.content = some c →
      pyStrip c = thinkOpen ++ a ++ thinkClose ++ b →
      (∀ j, j < thinkOpen.length + a.length →
        thinkClose.isPrefixOf ((pyStrip c).drop j) = false) →
      extractThinkingContent r =
        { r with choice := { r.choice with message :=
            { r.choice.message with
                reasoning_content := some (pyStrip a),
                content := some (pyStrip b) } } }) ∧
    (∀ c, r.choice.message.content = some c →
      findSub (pyStrip c) thinkClose = none →
      extractThinkingContent r = r) := by
  constructor
  · intro c a b hc hsplit hfirst
    have hcne : ¬ c = [] := by
      intro e
      rw [e] at hsplit
      have : ([] : List Char) = thinkOpen ++ a ++ thinkClose ++ b := by
        simpa [pyStrip] using hsplit
      simp [thinkOpen] at this
    have hpre : thinkOpen.isPrefixOf (pyStrip c) = true := by
      rw [hsplit]
      simp [List.isPrefixOf_iff_prefix]
    have hocc : thinkClose.isPrefixOf
        ((pyStrip c).drop (thinkOpen.length + a.length)) = true := by
      rw [hsplit,
        show thinkOpen ++ a ++ thinkClose ++ b =
          (thinkOpen ++ a) ++ (thinkClose ++ b) by simp,
        show thinkOpen.length + a.length = (thinkOpen ++ a).length by simp,
        List.drop_left]
      simp [List.isPrefixOf_iff_prefix]
    have hfind : findSub (pyStrip c) thinkClose =
        some (thinkOpen.length + a.length) :=
      findSub_eq_some_of_first thinkClose (thinkOpen.length + a.length)
        (pyStrip c) hocc hfirst
    have h1 : (pyStrip c).take (thinkOpen.length + a.length) = thinkOpen ++ a := by
      rw [hsplit,
        show thinkOpen ++ a ++ thinkClose ++ b =
          (thinkOpen ++ a) ++ (thinkClose ++ b) by simp,
        show thinkOpen.length + a.length = (thinkOpen ++ a).length by simp,
        List.take_left]
    have h3 : (pyStrip c).drop (thinkOpen.length + a.length + thinkClose.length)
        = b := by
      rw [hsplit,
        show thinkOpen ++ a ++ thinkClose ++ b =
          ((thinkOpen ++ a) ++ thinkClose) ++ b by simp,
        show thinkOpen.length + a.length + thinkClose.length =
          ((thinkOpen ++ a) ++ thinkClose).length by
            rw [List.length_append, List.length_append],
        List.drop_left]
    simp only [extractThinkingContent, hc, hcne, if_false, ite_false, hpre,
      if_true, hfind]
    rw [h1, List.drop_left thinkOpen a, h3]
  · intro c hc hnone
    by_cases hce : c = []
    · simp [extractThinkingContent, hc, hce]
    · by_cases hp : thinkOpen.isPrefixOf (pyStrip c)
      · simp [extractThinkingContent, hc, hce, hp, hnone]
      · simp [extractThinkingContent, hc, hce, hp]

/-- C6 witness: Scenario D, content think plan followed by final answer. -/
theorem think_tag_extraction_witness :
    pyStrip "<think>plan</think>final answer".toList =
      thinkOpen ++ "plan".toList ++ thinkClose ++ "final answer".toList ∧
    extractThinkingContent respThink =
      { respThink with choice := { respThink.choice with message :=
          { respThink.choice.message with
              reasoning_content := some (pyStrip "plan".toList),
              content := some (pyStrip "final answer".toList) } } } :=
  ⟨by decide,
    (think_tag_extraction respThink).1 "<think>plan</think>final answer".toList
      "plan".toList "final answer".toList rfl (by decide) (by decide)⟩

/-- C7: for a fully annotated callable with distinct parameter names,
inference succeeds and puts exactly the parameters without a default
into required, in order; a defaulted parameter is omitted from required
and its default value is copied into its property's default field; a
str-annotated parameter gets property type string. -/
theorem schema_required_and_defaults (f : PyFunc)
    (hann : ∀ p ∈ f.params, p.annot.isSome)
    (hnodup : (f.params.map PyParam.name).Nodup) :
    ∃ spec pm, infer_from_signature f = .ok (spec, pm) ∧
      spec.parameters.required =
        (f.params.filter (fun p => p.default.isNone)).map PyParam.name ∧
      (∀ p ∈ f.params, ∀ v, p.default = some v →
        p.name ∉ spec.parameters.required ∧
        ∃ prop, lookupAssoc spec.parameters.properties p.name = some prop ∧
          prop.default = some v) ∧
      (∀ p ∈ f.params, p.annot = some PyAnn.str →
        ∃ prop, lookupAssoc spec.parameters.properties p.name = some prop ∧
          prop.type = "string".toList) := by
  have hb := buildFields_ok_of_annotated f.name f.paramDescriptions f.params hann
  refine ⟨{ convert_to_tool_spec f.name []
      { model_fields := f.params.map (fieldOfParam f.paramDescriptions) } with
        description := functionDescription f },
    { model_fields := f.params.map (fieldOfParam f.paramDescriptions) },
    by simp [infer_from_signature, hb], ?_, ?_, ?_⟩
  · show ((f.params.map (fieldOfParam f.paramDescriptions)).filter
        (fun q => q.2.default.isNone)).map Prod.fst =
      (f.params.filter (fun p => p.default.isNone)).map PyParam.name
    rw [List.filter_map, List.map_map]
    rfl
  · intro p hp v hv
    constructor
    · intro hmem
      have hmem2 : p.name ∈ ((f.params.map (fieldOfParam f.paramDescriptions)).filter
          (fun q => q.2.default.isNone)).map Prod.fst := hmem
      rw [List.filter_map, List.map_map] at hmem2
      replace hmem := hmem2
      obtain ⟨q, hqf, hqe⟩ := List.mem_map.mp hmem
      obtain ⟨hqmem, hqdef⟩ := List.mem_filter.mp hqf
      have hqp : q = p :=
        List.inj_on_of_nodup_map hnodup hqmem hp hqe
      rw [hqp] at hqdef
      simp [Function.comp, fieldOfParam, hv] at hqdef
    · show ∃ prop,
        lookupAssoc ((f.params.map (fieldOfParam f.paramDescriptions)).map
          (fun q => (q.1, propOfField q.2))) p.name = some prop ∧
        prop.default = some v
      rw [List.map_map]
      rw [lookupAssoc_map_of_nodup _ (fun _ => rfl) f.params p hnodup hp]
      refine ⟨_, rfl, ?_⟩
      show (propOfField (fieldOfParam f.paramDescriptions p).2).default = some v
      cases hpa : (fieldOfParam f.paramDescriptions p).2.annot <;>
        simp [propOfField, hpa, fieldOfParam, hv] <;>
        simp [fieldOfParam] at hpa <;>
        simp [hpa]
  · intro p hp hstr
    show ∃ prop,
        lookupAssoc ((f.params.map (fieldOfParam f.paramDescriptions)).map
          (fun q => (q.1, propOfField q.2))) p.name = some prop ∧
        prop.type = "string".toList
    rw [List.map_map]
    rw [lookupAssoc_map_of_nodup _ (fun _ => rfl) f.params p hnodup hp]
    refine ⟨_, rfl, ?_⟩
    show (propOfField (fieldOfParam f.paramDescriptions p).2).type = "string".toList
    have : (fieldOfParam f.paramDescriptions p).2.annot = PyAnn.str := by
      simp [fieldOfParam, hstr]
    simp [propOfField, this, typeMapping]

/-- C7 witness: Scenario A, f(location: str, unit: str = "Celsius"). -/
theorem schema_required_and_defaults_witness :
    (∀ p ∈ scenarioAFunc.params, p.annot.isSome) ∧
    (scenarioAFunc.params.map PyParam.name).Nodup ∧
    ∃ spec pm, infer_from_signature scenarioAFunc = .ok (spec, pm) ∧
      spec.parameters.required =
        (scenarioAFunc.params.filter (fun p => p.default.isNone)).map PyParam.name ∧
      (∀ p ∈ scenarioAFunc.params, ∀ v, p.default = some v →
        p.name ∉ spec.parameters.required ∧
        ∃ prop, lookupAssoc spec.parameters.properties p.name = some prop ∧
          prop.default = some v) ∧
      (∀ p ∈ scenarioAFunc.params, p.annot = some PyAnn.str →
        ∃ prop, lookupAssoc spec.parameters.properties p.name = some prop ∧
          prop.type = "string".toList) :=
  ⟨by decide, by decide,
    schema_required_and_defaults scenarioAFunc (by decide) (by decide)⟩

/-- C1 (amended): in a run where every turn up to maxTurns requests a
non-empty tool-call list (here one call per turn) and every execution
succeeds, the returned response carries intermediate_responses of length
maxTurns - 1 (all responses but the last are retained) and
intermediate_messages made of one assistant entry followed by that turn's
tool entry, per turn, in turn order. -/
theorem full_run_bookkeeping (t : Tools) (provider : Nat → ChatCompletionResponse)
    (h : Heap) (mr : Nat) (n : Nat)
    (hgood : ∀ i, i < n + 1 → goodTurnB t provider i = true)
    (hone : ∀ i, i < n + 1 → ((tcAt provider i).getD []).length = 1) :
    ∃ a, (create_tool_mode t provider h mr ((n + 1 : Nat) : Int)).result = .ok a ∧
      a.intermediate_responses = (respsFrom provider 0 (n + 1)).dropLast ∧
      a.intermediate_responses.length = n ∧
      a.intermediate_messages = blocksFrom t provider 0 (n + 1) ∧
      ∀ i, i < n + 1 → ∃ tm, execMsgsAt t provider i = [tm] ∧
        tm.role = some "tool".toList := by
  unfold create_tool_mode tool_runner
  rw [Int.toNat_natCast]
  rw [toolRunnerLoop_advance t provider (n + 1) (n + 1) 0 _ _ [] [] none
    (Nat.le_refl _) (by simpa using hgood)]
  simp only [Nat.sub_self, Nat.zero_add, List.nil_append, lastAfter, toolRunnerLoop]
  refine ⟨_, rfl, rfl, ?_, rfl, ?_⟩
  · rw [List.length_dropLast, respsFrom_length]
    omega
  · intro i hi
    have hg := hgood i hi
    have h1 := hone i hi
    unfold goodTurnB at hg
    cases htc : tcAt provider i with
    | none => rw [htc] at hg; simp at hg
    | some cl =>
      rw [htc] at hg
      rw [htc] at h1
      cases cl with
      | nil => simp at h1
      | cons c cs =>
        cases cs with
        | cons c2 cs2 => simp at h1
        | nil =>
          simp only [Bool.and_eq_true] at hg
          cases hex : execute_tool t [c] with
          | error e => rw [hex] at hg; simp [Except.isOk, Except.toBool] at hg
          | ok p =>
            obtain ⟨rs, ms⟩ := p
            obtain ⟨hlen, hzip⟩ := execute_tool_ok t [c] rs ms hex
            cases rs with
            | nil => simp at hlen
            | cons r rs2 =>
              cases rs2 with
              | cons r2 rs3 => simp at hlen
              | nil =>
                refine ⟨toolResultMessage c r, ?_, rfl⟩
                simp [execMsgsAt, htc, hex, hzip]

/-- C1 witness: a two-turn forced run on the weather fixture. -/
theorem full_run_bookkeeping_witness :
    (∀ i, i < 1 + 1 → goodTurnB fixtureTools providerAllTools i = true) ∧
    (∀ i, i < 1 + 1 → ((tcAt providerAllTools i).getD []).length = 1) ∧
    ∃ a, (create_tool_mode fixtureTools providerAllTools fixtureHeap 0
        ((1 + 1 : Nat) : Int)).result = .ok a ∧
      a.intermediate_responses = (respsFrom providerAllTools 0 (1 + 1)).dropLast ∧
      a.intermediate_responses.length = 1 ∧
      a.intermediate_messages = blocksFrom fixtureTools providerAllTools 0 (1 + 1) ∧
      ∀ i, i < 1 + 1 → ∃ tm, execMsgsAt fixtureTools providerAllTools i = [tm] ∧
        tm.role = some "tool".toList :=
  ⟨by decide, by decide,
    full_run_bookkeeping fixtureTools providerAllTools fixtureHeap 0 1
      (by decide) (by decide)⟩

/-- C1 counterexample: with maxTurns = 2 and a tool call requested on both
turns, the returned intermediate_responses has length 1, not the length 2
the claim asserts. -/
theorem full_run_bookkeeping_counterexample :
    (create_tool_mode fixtureTools providerAllTools fixtureHeap 0 2).result.map
        (fun a => a.intermediate_responses.length) = .ok 1 ∧
    (create_tool_mode fixtureTools providerAllTools fixtureHeap 0 2).result.map
        (fun a => a.intermediate_responses.length) ≠ .ok 2 :=
  ⟨by decide, by decide⟩

/-- C3 (amended): when the first k turns all request tools successfully and
the response of call k carries no tool calls (absent or empty list), the
loop terminates within that same turn: the run makes exactly k + 1 adapter
calls and returns that response as final.  Termination is keyed to the
message's tool_calls, not to finish_reason (see the counterexample). -/
theorem loop_terminates_on_no_tool_calls (t : Tools)
    (provider : Nat → ChatCompletionResponse) (h : Heap) (mr : Nat) (m k : Nat)
    (hk : k < m)
    (hgood : ∀ i, i < k → goodTurnB t provider i = true)
    (hstop : tcAt provider k = none ∨ tcAt provider k = some []) :
    (create_tool_mode t provider h mr ((m : Nat) : Int)).calls = k + 1 ∧
    ∃ a, (create_tool_mode t provider h mr ((m : Nat) : Int)).result = .ok a ∧
      a.response = respAt provider k := by
  unfold create_tool_mode tool_runner
  rw [Int.toNat_natCast]
  rw [toolRunnerLoop_advance t provider k m 0 _ _ [] [] none
    (Nat.le_of_lt hk) (by simpa using hgood)]
  obtain ⟨fd, hfd⟩ : ∃ fd, m - k = fd + 1 := ⟨m - k - 1, by omega⟩
  rw [hfd]
  simp only [Nat.zero_add]
  rw [toolRunnerLoop_stop t provider fd k _ _ _ _ _ hstop]
  exact ⟨rfl, _, rfl, rfl⟩

/-- C3 witness: one tool turn followed by a response without tool calls
terminates after the second adapter call. -/
theorem loop_terminates_on_no_tool_calls_witness :
    (1 < 3) ∧
    (∀ i, i < 1 → goodTurnB fixtureTools providerStopWithTool i = true) ∧
    (tcAt providerStopWithTool 1 = none ∨ tcAt providerStopWithTool 1 = some []) ∧
    (create_tool_mode fixtureTools providerStopWithTool fixtureHeap 0
      ((3 : Nat) : Int)).calls = 1 + 1 :=
  ⟨by decide, by decide, by decide,
    (loop_terminates_on_no_tool_calls fixtureTools providerStopWithTool fixtureHeap 0
      3 1 (by decide) (by decide) (by decide)).1⟩

/-- C3 counterexample: the first response has finish_reason stop — not
tool_calls — yet carries a tool call, and the orchestrator does not
terminate in that turn: it makes a second adapter call. -/
theorem finish_reason_not_termination_counterexample :
    respStopWithTool.choice.finish_reason ≠ some "tool_calls".toList ∧
    (extractThinkingContent respStopWithTool).choice.message.tool_calls =
      some [fixtureCall] ∧
    (create_tool_mode fixtureTools providerStopWithTool fixtureHeap 0 3).calls = 2 :=
  ⟨by decide, by decide, by decide⟩

/-- C9: when the run hits the forced maxTurns boundary, the tool calls of
the final response are still executed: execution returns results and
tool-result messages, those messages end both the working transcript and
intermediate_messages, the returned response still reports the tool
calls, and no further adapter call is made (exactly maxTurns calls). -/
theorem boundary_tools_executed (t : Tools) (provider : Nat → ChatCompletionResponse)
    (h : Heap) (mr : Nat) (n : Nat)
    (hgood : ∀ i, i < n + 1 → goodTurnB t provider i = true) :
    ∃ cl rs tms a,
      tcAt provider n = some cl ∧ cl ≠ [] ∧
      execute_tool t cl = .ok (rs, tms) ∧
      (create_tool_mode t provider h mr ((n + 1 : Nat) : Int)).result = .ok a ∧
      a.response.choice.message.tool_calls = some cl ∧
      List.IsSuffix tms a.intermediate_messages ∧
      List.IsSuffix tms
        ((create_tool_mode t provider h mr ((n + 1 : Nat) : Int)).heap.get
          h.refs.length) ∧
      (create_tool_mode t provider h mr ((n + 1 : Nat) : Int)).calls = n + 1 := by
  have hgn := hgood n (Nat.lt_succ_self n)
  unfold goodTurnB at hgn
  cases htc : tcAt provider n with
  | none => rw [htc] at hgn; simp at hgn
  | some cl =>
    rw [htc] at hgn
    simp only [Bool.and_eq_true] at hgn
    have hclne : cl ≠ [] := by
      intro e
      rw [e] at hgn
      simp at hgn
    cases hex : execute_tool t cl with
    | error e => rw [hex] at hgn; simp [Except.isOk, Except.toBool] at hgn
    | ok p =>
      obtain ⟨rs, tms⟩ := p
      have hexm : execMsgsAt t provider n = tms := by
        simp [execMsgsAt, htc, hex]
      have hrun :
          create_tool_mode t provider h mr ((n + 1 : Nat) : Int) =
            ⟨n + 1,
              ((h.alloc (h.get mr)).1.set (h.alloc (h.get mr)).2
                ((h.alloc (h.get mr)).1.get (h.alloc (h.get mr)).2 ++
                  blocksFrom t provider 0 (n + 1))),
              .ok ⟨respAt provider n, (respsFrom provider 0 (n + 1)).dropLast,
                blocksFrom t provider 0 (n + 1)⟩⟩ := by
        unfold create_tool_mode tool_runner
        rw [Int.toNat_natCast]
        rw [toolRunnerLoop_advance t provider (n + 1) (n + 1) 0 _ _ [] [] none
          (Nat.le_refl _) (by simpa using hgood)]
        simp only [Nat.sub_self, Nat.zero_add, List.nil_append, lastAfter,
          toolRunnerLoop]
      have hdecomp : blocksFrom t provider 0 (n + 1) =
          (blocksFrom t provider 0 n ++ [msgAt provider n]) ++ tms := by
        rw [blocksFrom_snoc]
        simp [blockAt, hexm]
      refine ⟨cl, rs, tms,
        ⟨respAt provider n, (respsFrom provider 0 (n + 1)).dropLast,
          blocksFrom t provider 0 (n + 1)⟩,
        rfl, hclne, hex, ?_, ?_, ?_, ?_, ?_⟩
      · rw [hrun]
      · exact htc
      · exact ⟨blocksFrom t provider 0 n ++ [msgAt provider n], hdecomp.symm⟩
      · rw [hrun]
        have hfresh : (h.alloc (h.get mr)).2 < (h.alloc (h.get mr)).1.refs.length := by
          simp [Heap.alloc]
        show List.IsSuffix tms
          (((h.alloc (h.get mr)).1.set (h.alloc (h.get mr)).2
            ((h.alloc (h.get mr)).1.get (h.alloc (h.get mr)).2 ++
              blocksFrom t provider 0 (n + 1))).get (h.alloc (h.get mr)).2)
        rw [heap_get_set_self _ _ _ hfresh, heap_get_alloc_fresh, hdecomp]
        exact ⟨h.get mr ++ (blocksFrom t provider 0 n ++ [msgAt provider n]), by simp⟩
      · rw [hrun]

/-- C9 witness: a two-turn forced run executes the second turn's tool call. -/
theorem boundary_tools_executed_witness :
    (∀ i, i < 1 + 1 → goodTurnB fixtureTools providerAllTools i = true) ∧
    ∃ cl rs tms a,
      tcAt providerAllTools 1 = some cl ∧ cl ≠ [] ∧
      execute_tool fixtureTools cl = .ok (rs, tms) ∧
      (create_tool_mode fixtureTools providerAllTools fixtureHeap 0
        ((1 + 1 : Nat) : Int)).result = .ok a ∧
      a.response.choice.message.tool_calls = some cl ∧
      List.IsSuffix tms a.intermediate_messages ∧
      List.IsSuffix tms
        ((create_tool_mode fixtureTools providerAllTools fixtureHeap 0
          ((1 + 1 : Nat) : Int)).heap.get fixtureHeap.refs.length) ∧
      (create_tool_mode fixtureTools providerAllTools fixtureHeap 0
        ((1 + 1 : Nat) : Int)).calls = 1 + 1 :=
  ⟨by decide,
    boundary_tools_executed fixtureTools providerAllTools fixtureHeap 0 1 (by decide)⟩

end Aisuite
